import Mathlib

set_option maxRecDepth 10000

/-!
Shallow embedding of the ChaCha stream-cipher core
(`src/stream-ciphers/chacha/src/lib.rs`).

Machine integers are modelled as `Nat` with explicit reduction:
`m32` is `% 2^32` (Rust `u32` wrapping arithmetic / `as u32` casts) and
`m64` is `% 2^64` (Rust `u64` release-mode wrapping arithmetic).
The `i8` field `have` is modelled as `Int`.  The little-endian byte
swap `w.to_le()` is the identity at word level on a little-endian host;
the byte view of the `Block`/`WordBytes` unions is `wordsToBytes`,
which serialises each 32-bit word in little-endian order, matching the
observable byte view on both endiannesses.
-/

namespace CC

/-- Reduction of `u32` wrapping arithmetic / Rust `as u32` casts. -/
def m32 (n : Nat) : Nat := n % 4294967296

/-- Reduction of `u64` wrapping arithmetic. -/
def m64 (n : Nat) : Nat := n % 18446744073709551616

/-- A 4-lane vector of 32-bit words: the `u32x4` SIMD type. -/
structure V4 where
  x0 : Nat
  x1 : Nat
  x2 : Nat
  x3 : Nat
deriving DecidableEq, Repr

/-- `u32x4::replace(0, w)`. -/
def V4.replace0 (v : V4) (w : Nat) : V4 := { v with x0 := w }

/-- `u32x4::replace(1, w)`. -/
def V4.replace1 (v : V4) (w : Nat) : V4 := { v with x1 := w }

/-- Lane-wise wrapping addition, `u32x4::add`. -/
def V4.add (u v : V4) : V4 :=
  ⟨m32 (u.x0 + v.x0), m32 (u.x1 + v.x1), m32 (u.x2 + v.x2), m32 (u.x3 + v.x3)⟩

/-- Lane-wise XOR, `u32x4::bitxor`. -/
def V4.xor4 (u v : V4) : V4 :=
  ⟨u.x0 ^^^ v.x0, u.x1 ^^^ v.x1, u.x2 ^^^ v.x2, u.x3 ^^^ v.x3⟩

/-- 32-bit right rotation of one word, `splat_rotate_right`. -/
def rr32 (w r : Nat) : Nat := (w >>> r) ||| m32 (w <<< (32 - r))

/-- Lane-wise right rotation. -/
def V4.rotr (v : V4) (r : Nat) : V4 :=
  ⟨rr32 v.x0 r, rr32 v.x1 r, rr32 v.x2 r, rr32 v.x3 r⟩

/-- `rotate_words_right(1)`: every lane moves one slot to the right. -/
def V4.rw1 (v : V4) : V4 := ⟨v.x3, v.x0, v.x1, v.x2⟩

/-- `rotate_words_right(2)`. -/
def V4.rw2 (v : V4) : V4 := ⟨v.x2, v.x3, v.x0, v.x1⟩

/-- `rotate_words_right(3)`. -/
def V4.rw3 (v : V4) : V4 := ⟨v.x1, v.x2, v.x3, v.x0⟩

/-- The narrow (`u32x4`) instantiation of the round state `X4`. -/
structure X4 where
  a : V4
  b : V4
  c : V4
  d : V4
deriving DecidableEq, Repr

/-- The source's `round` over `u32x4` rows (right rotations by 16/20/24/25). -/
def roundN (x : X4) : X4 :=
  let a := x.a.add x.b
  let d := (x.d.xor4 a).rotr 16
  let c := x.c.add d
  let b := (x.b.xor4 c).rotr 20
  let a2 := a.add b
  let d2 := (d.xor4 a2).rotr 24
  let c2 := c.add d2
  let b2 := (b.xor4 c2).rotr 25
  ⟨a2, b2, c2, d2⟩

/-- The source's `diagonalize`. -/
def diagN (x : X4) : X4 := ⟨x.a, x.b.rw3, x.c.rw2, x.d.rw1⟩

/-- The source's `undiagonalize`. -/
def undiagN (x : X4) : X4 := ⟨x.a, x.b.rw1, x.c.rw2, x.d.rw3⟩

/-- One iteration of the refill loop: a column round then a diagonal round
(`x = round(x); x = undiagonalize(round(diagonalize(x)))`). -/
def dround (x : X4) : X4 := undiagN (roundN (diagN (roundN x)))

/-- `drounds n` iterates `dround` `n` times (the `for _ in 0..drounds` loop). -/
def drounds : Nat → X4 → X4
  | 0, x => x
  | n + 1, x => drounds n (dround x)

/-- The `u32x4x4` SIMD type: four `u32x4` parts, one per parallel block. -/
structure W4 where
  p0 : V4
  p1 : V4
  p2 : V4
  p3 : V4
deriving DecidableEq, Repr

/-- `u32x4x4::splat`. -/
def W4.splat (v : V4) : W4 := ⟨v, v, v, v⟩

/-- Part-wise wrapping addition. -/
def W4.add (u v : W4) : W4 := ⟨u.p0.add v.p0, u.p1.add v.p1, u.p2.add v.p2, u.p3.add v.p3⟩

/-- Part-wise XOR. -/
def W4.xor4 (u v : W4) : W4 := ⟨u.p0.xor4 v.p0, u.p1.xor4 v.p1, u.p2.xor4 v.p2, u.p3.xor4 v.p3⟩

/-- Part-wise lane rotation. -/
def W4.rotr (v : W4) (r : Nat) : W4 := ⟨v.p0.rotr r, v.p1.rotr r, v.p2.rotr r, v.p3.rotr r⟩

/-- `rotate_words_right(1)` acting within each part (the inner-4 dimension). -/
def W4.rw1 (v : W4) : W4 := ⟨v.p0.rw1, v.p1.rw1, v.p2.rw1, v.p3.rw1⟩

/-- `rotate_words_right(2)` within each part. -/
def W4.rw2 (v : W4) : W4 := ⟨v.p0.rw2, v.p1.rw2, v.p2.rw2, v.p3.rw2⟩

/-- `rotate_words_right(3)` within each part. -/
def W4.rw3 (v : W4) : W4 := ⟨v.p0.rw3, v.p1.rw3, v.p2.rw3, v.p3.rw3⟩

/-- The wide (`u32x4x4`) instantiation of the round state `X4`. -/
structure XW where
  a : W4
  b : W4
  c : W4
  d : W4
deriving DecidableEq, Repr

/-- The source's `round` over `u32x4x4` rows. -/
def roundW (x : XW) : XW :=
  let a := x.a.add x.b
  let d := (x.d.xor4 a).rotr 16
  let c := x.c.add d
  let b := (x.b.xor4 c).rotr 20
  let a2 := a.add b
  let d2 := (d.xor4 a2).rotr 24
  let c2 := c.add d2
  let b2 := (b.xor4 c2).rotr 25
  ⟨a2, b2, c2, d2⟩

/-- `diagonalize` at wide width. -/
def diagW (x : XW) : XW := ⟨x.a, x.b.rw3, x.c.rw2, x.d.rw1⟩

/-- `undiagonalize` at wide width. -/
def undiagW (x : XW) : XW := ⟨x.a, x.b.rw1, x.c.rw2, x.d.rw3⟩

/-- One iteration of the wide refill loop. -/
def droundW (x : XW) : XW := undiagW (roundW (diagW (roundW x)))

/-- Iterated wide double rounds. -/
def droundsW : Nat → XW → XW
  | 0, x => x
  | n + 1, x => droundsW n (droundW x)

/-- The ChaCha constant row `k`. -/
def kRow : V4 := ⟨0x61707865, 0x3320646e, 0x79622d32, 0x6b206574⟩

/-- The cipher state: two key rows and the counter-plus-nonce row. -/
structure ChaCha where
  b : V4
  c : V4
  d : V4
deriving DecidableEq, Repr

/-- The 64-bit block counter assembled from lanes 0 and 1 of `d`, exactly as
the source does: `u64::from(d.extract(0)) | (u64::from(d.extract(1)) << 32)`. -/
def ctr64 (d : V4) : Nat := d.x0 ||| (d.x1 <<< 32)

/-- The four words of a `u32x4` in lane order (`write_to_slice_unaligned`). -/
def v4w (v : V4) : List Nat := [v.x0, v.x1, v.x2, v.x3]

/-- `ChaCha::refill_narrow_impl`: one 64-byte block as 16 words, plus the
state with its 64-bit counter incremented (low word first, carry into high). -/
def refillNarrow (s : ChaCha) (r : Nat) : List Nat × ChaCha :=
  let x := drounds r ⟨kRow, s.b, s.c, s.d⟩
  let ws := v4w (x.a.add kRow) ++ v4w (x.b.add s.b) ++ v4w (x.c.add s.c) ++ v4w (x.d.add s.d)
  let bc1 := m64 (ctr64 s.d + 1)
  (ws, { s with d := (s.d.replace0 (m32 bc1)).replace1 (m32 (bc1 >>> 32)) })

/-- `ChaCha::refill_wide_impl`: four consecutive blocks as 64 words, plus the
state advanced by four blocks.  Note the two derivations of `d1`/`d2`/`d3`:
before the rounds, `d3` is `d2 + u32x4::new(1, 0, 0, 0)` (a lane-0-only
wrapping add with no carry into lane 1); before the add-back, `d3` is
rederived from `blockct1 + 2` with a full 64-bit carry. -/
def refillWide (s : ChaCha) (r : Nat) : List Nat × ChaCha :=
  let bc1 := m64 (ctr64 s.d + 1)
  let d1 := (s.d.replace0 (m32 bc1)).replace1 (m32 (bc1 >>> 32))
  let bc2 := m64 (bc1 + 1)
  let d2 := (d1.replace0 (m32 bc2)).replace1 (m32 (bc2 >>> 32))
  let d3 := d2.add ⟨1, 0, 0, 0⟩
  let x := droundsW r ⟨W4.splat kRow, W4.splat s.b, W4.splat s.c, ⟨s.d, d1, d2, d3⟩⟩
  let bc1b := m64 (ctr64 s.d + 1)
  let d1b := (s.d.replace0 (m32 bc1b)).replace1 (m32 (bc1b >>> 32))
  let bc2b := m64 (bc1b + 1)
  let d2b := (d1b.replace0 (m32 bc2b)).replace1 (m32 (bc2b >>> 32))
  let bc3b := m64 (bc1b + 2)
  let d3b := (d1b.replace0 (m32 bc3b)).replace1 (m32 (bc3b >>> 32))
  let ws :=
    v4w (x.a.p0.add kRow) ++ v4w (x.b.p0.add s.b) ++ v4w (x.c.p0.add s.c) ++ v4w (x.d.p0.add s.d) ++
    v4w (x.a.p1.add kRow) ++ v4w (x.b.p1.add s.b) ++ v4w (x.c.p1.add s.c) ++ v4w (x.d.p1.add d1b) ++
    v4w (x.a.p2.add kRow) ++ v4w (x.b.p2.add s.b) ++ v4w (x.c.p2.add s.c) ++ v4w (x.d.p2.add d2b) ++
    v4w (x.a.p3.add kRow) ++ v4w (x.b.p3.add s.b) ++ v4w (x.c.p3.add s.c) ++ v4w (x.d.p3.add d3b)
  let bc4 := m64 (bc2b + 2)
  (ws, { s with d := (d3b.replace0 (m32 bc4)).replace1 (m32 (bc4 >>> 32)) })

/-- `ChaCha::seek32`: set the 32-bit block count (lane 0 only).  The
`blockct as u32` cast happens at the call site and is passed already reduced. -/
def ChaCha.seek32 (s : ChaCha) (blockct : Nat) : ChaCha :=
  { s with d := s.d.replace0 blockct }

/-- `ChaCha::seek64`: set the 64-bit block count in lanes 0 and 1. -/
def ChaCha.seek64 (s : ChaCha) (blockct : Nat) : ChaCha :=
  { s with d := (s.d.replace0 (m32 blockct)).replace1 (m32 (blockct >>> 32)) }

/-- Little-endian byte serialisation of one 32-bit word: the byte view of a
stored word after the `to_le` step. -/
def wordBytes (w : Nat) : List Nat := [w % 256, w / 256 % 256, w / 65536 % 256, w / 16777216 % 256]

/-- The byte view of a word buffer (the `bytes` member of the unions). -/
def wordsToBytes (ws : List Nat) : List Nat := (ws.map wordBytes).flatten

/-- XOR of the data bytes with keystream bytes (`*data_b ^= *key_b` over a
`zip`, which stops at the shorter side). -/
def xorBytes (d k : List Nat) : List Nat := List.zipWith (· ^^^ ·) d k

/-- The keystream `Buffer`: cipher state, one-block residue (byte view),
signed residue count `have` (here `hav`), remaining block budget, and the
freshness bit. -/
structure Buffer where
  state : ChaCha
  out : List Nat
  hav : Int
  len : Nat
  fresh : Bool
deriving DecidableEq, Repr

/-- Result of `try_apply_keystream`: the mutated buffer, the mutated data
slice, and whether the call succeeded (`Ok(())` vs `Err(LoopError)`). -/
structure TryResult where
  buf : Buffer
  data : List Nat
  ok : Bool
deriving DecidableEq, Repr

/-- The `self.have as usize` cast: an `i8` is sign-extended and then
reinterpreted as a 64-bit unsigned quantity. -/
def i8usize (h : Int) : Nat := (h % (18446744073709551616 : Int)).toNat

/-- `u64::overflowing_sub`: the wrapped difference and the borrow flag. -/
def ovSub64 (a b : Nat) : Nat × Bool :=
  ((a + 18446744073709551616 - b % 18446744073709551616) % 18446744073709551616, decide (a < b))

/-- The lazy-fill step at the top of `try_apply_keystream`: if `have < 0`
(we are partway into a block we do not have yet, after a `seek`), produce one
block, raise `have` by 64 and decrement `len` by one (an unguarded `u64`
subtraction, which wraps at zero in release builds). -/
def lazyRefill (r : Nat) (b : Buffer) : Buffer :=
  if b.hav < 0 then
    { state := (refillNarrow b.state r).2, out := wordsToBytes (refillNarrow b.state r).1,
      hav := b.hav + 64,
      len := (b.len + 18446744073709551616 - 1) % 18446744073709551616, fresh := b.fresh }
  else b

/-- `blocks_needed` for a tail of `n` bytes: `n / 64`, rounded up. -/
def blocksNeededOf (n : Nat) : Nat := n / 64 + (if n % 64 = 0 then 0 else 1)

/-- The wide bulk loop: `q` iterations, each consuming 256 data bytes against
a freshly generated 4-block scratch buffer that is not retained. -/
def wideChunks (r : Nat) : Nat → ChaCha → List Nat → ChaCha × List Nat
  | 0, s, _ => (s, [])
  | q + 1, s, d =>
    let rf := refillWide s r
    let ch := xorBytes (d.take 256) (wordsToBytes rf.1)
    let rest := wideChunks r q rf.2 (d.drop 256)
    (rest.1, ch ++ rest.2)

/-- Result of the narrow tail loop. -/
structure TailRes where
  state : ChaCha
  out : List Nat
  hav : Nat
  od : List Nat
deriving DecidableEq, Repr

/-- The narrow tail loop (`data.chunks_mut(BLOCK)`): `q` chunks of at most
64 bytes; each iteration refills `self.out`, XORs the chunk, and records
`have = 64 - chunk.len()`. -/
def narrowTail (r : Nat) : Nat → ChaCha → List Nat → Nat → List Nat → TailRes
  | 0, s, out, hv, _ => ⟨s, out, hv, []⟩
  | q + 1, s, _, _, d =>
    let rf := refillNarrow s r
    let ob := wordsToBytes rf.1
    let ch := xorBytes (d.take 64) ob
    let hv := 64 - min 64 d.length
    let rest := narrowTail r q rf.2 ob hv (d.drop 64)
    ⟨rest.state, rest.out, rest.hav, ch ++ rest.od⟩

/-- `Buffer::try_apply_keystream`, for round count `r` and data slice
`data`.  Mirrors the source step for step: lazy refill, overflow check on
`len` (with `fresh` disambiguating the initial 64-bit-counter state),
residue consumption, wide bulk chunks of 256 bytes, and the narrow tail. -/
def tryApplyKeystream (r : Nat) (b0 : Buffer) (data : List Nat) : TryResult :=
  let b := lazyRefill r b0
  let hv := i8usize b.hav
  let haveReady := min hv data.length
  let datalen := data.length - haveReady
  let needed := blocksNeededOf datalen
  let lo := ovSub64 b.len needed
  if lo.2 && !b.fresh then ⟨b, data, false⟩
  else
    let d0 := xorBytes (data.take haveReady) (b.out.drop (64 - hv))
    let data1 := data.drop haveReady
    let hv1 := hv - haveReady
    let wideN := data1.length - data1.length % 256
    let w := wideChunks r (wideN / 256) b.state (data1.take wideN)
    let t := narrowTail r (((data1.drop wideN).length + 63) / 64) w.1 b.out hv1 (data1.drop wideN)
    ⟨{ state := t.state, out := t.out, hav := (t.hav : Int), len := lo.1,
       fresh := b.fresh && decide (needed = 0) }, d0 ++ w.2 ++ t.od, true⟩

/-- Little-endian 32-bit read at byte index `i` (`LE::read_u32`). -/
def leW (l : List Nat) (i : Nat) : Nat :=
  l.getD i 0 + 256 * l.getD (i + 1) 0 + 65536 * l.getD (i + 2) 0 + 16777216 * l.getD (i + 3) 0

/-- `ChaChaAny::<NonceSize, Rounds, O>::new`: construction for the
non-extended variants (8-byte-nonce 64-bit-counter, and 12-byte-nonce IETF).
`ns` is the nonce size in bytes. -/
def newO (ns : Nat) (key nonce : List Nat) : Buffer :=
  let ctrNonce : V4 :=
    ⟨0, if ns = 12 then leW nonce 0 else 0, leW nonce (ns - 8), leW nonce (ns - 4)⟩
  let key0 : V4 := ⟨leW key 0, leW key 4, leW key 8, leW key 12⟩
  let key1 : V4 := ⟨leW key 16, leW key 20, leW key 24, leW key 28⟩
  { state := ⟨key0, key1, ctrNonce⟩,
    out := List.replicate 64 0,
    hav := 0,
    len := if ns = 12 then 4294967296 else 0,
    fresh := ns ≠ 12 }

/-- `ChaChaAny::seek`.  `ietf` selects the `NonceSize::U32 == 12` branch.
`none` models the `assert!` panic (`InvalidSeek`); the 64-bit-counter branch
never panics. -/
def seekAny (ietf : Bool) (b : Buffer) (ct : Nat) : Option Buffer :=
  let blockct := ct / 64
  if ietf then
    if blockct < 4294967296 ∨ (blockct = 4294967296 ∧ ct % 64 = 0) then
      some { b with
        len := 4294967296 - blockct,
        state := b.state.seek32 (m32 blockct),
        hav := -((ct % 64 : Nat) : Int) }
    else none
  else
    some { b with
      len := (0 + 18446744073709551616 - blockct % 18446744073709551616) % 18446744073709551616,
      state := b.state.seek64 blockct,
      fresh := decide (blockct = 0),
      hav := -((ct % 64 : Nat) : Int) }

/-! ## Concrete instances -/

/-- An all-zero 32-byte key. -/
def kZ32 : List Nat := List.replicate 32 0

/-- An all-zero 8-byte nonce. -/
def nZ8 : List Nat := List.replicate 8 0

/-- ChaCha20 (64-bit counter) seeked to block `0xFFFFFFFD`, block-aligned:
three blocks before the low counter lane wraps into the high lane. -/
def c1Base : Buffer := (seekAny false (newO 8 kZ32 nZ8) (4294967293 * 64)).getD (newO 8 kZ32 nZ8)

/-- A single 256-byte request from `c1Base` (taking the wide bulk path). -/
def c1Single : TryResult := tryApplyKeystream 10 c1Base (List.replicate 256 0)

/-- The same range issued as four successive 64-byte requests. -/
def c1Chunk1 : TryResult := tryApplyKeystream 10 c1Base (List.replicate 64 0)

/-- Second 64-byte chunk. -/
def c1Chunk2 : TryResult := tryApplyKeystream 10 c1Chunk1.buf (List.replicate 64 0)

/-- Third 64-byte chunk. -/
def c1Chunk3 : TryResult := tryApplyKeystream 10 c1Chunk2.buf (List.replicate 64 0)

/-- Fourth 64-byte chunk. -/
def c1Chunk4 : TryResult := tryApplyKeystream 10 c1Chunk3.buf (List.replicate 64 0)

/-- Claim C1 fails on the code: for ChaCha20 with the zero key and nonce, the
byte range of 256 bytes starting at offset `0xFFFFFFFD * 64` gives different
output when requested in one `try_apply_keystream` call (wide bulk path, whose
fourth block is generated from a counter row missing the carry into the high
lane) than when requested as four successive 64-byte calls (narrow path with a
correct 64-bit carry), although every call stays within the 64-bit horizon and
succeeds.  The two results agree on the first three blocks and differ in bytes
192..256. -/
theorem c1_wide_narrow_disagree :
    c1Single.ok = true ∧ c1Chunk1.ok = true ∧ c1Chunk2.ok = true ∧
    c1Chunk3.ok = true ∧ c1Chunk4.ok = true ∧
    c1Single.data.take 192 = c1Chunk1.data ++ c1Chunk2.data ++ c1Chunk3.data ∧
    c1Single.data ≠ c1Chunk1.data ++ c1Chunk2.data ++ c1Chunk3.data ++ c1Chunk4.data := by
  decide

/-- A state whose 64-bit block counter is `0xFFFFFFFD`: incrementing it by 3
carries from the low 32-bit lane into the high lane. -/
def c2State : ChaCha := ⟨⟨1, 2, 3, 4⟩, ⟨5, 6, 7, 8⟩, ⟨4294967293, 0, 11, 12⟩⟩

/-- `c2State.d` with its 64-bit counter incremented by 3 (the row the claim
says block 3 of the wide refill is generated with). -/
def c2StateP3 : ChaCha := ⟨⟨1, 2, 3, 4⟩, ⟨5, 6, 7, 8⟩, ⟨0, 1, 11, 12⟩⟩

/-- Claim C2 fails on the code at a counter where the increment carries across
the 32-bit lane boundary: starting from counter `0xFFFFFFFD`, the wide refill
does advance `state.d`'s counter by exactly 4 (with carry, nonce lanes intact),
but block 3 of its output is not the ChaCha block for counter row d₀+3 — the
pre-round `d3` is computed as `d2 + u32x4::new(1,0,0,0)`, a lane-0 wrapping add
with no carry into lane 1, while the add-back `d3` is rederived with a full
64-bit carry, so the two derivations disagree and the generated block matches
neither. -/
theorem c2_wide_d3_carry_bug :
    ctr64 c2StateP3.d = ctr64 c2State.d + 3 ∧
    ctr64 (refillWide c2State 10).2.d = ctr64 c2State.d + 4 ∧
    (refillWide c2State 10).2.d.x2 = 11 ∧ (refillWide c2State 10).2.d.x3 = 12 ∧
    (refillWide c2State 10).1.take 48 =
      ((refillNarrow c2State 10).1 ++
        (refillNarrow (refillNarrow c2State 10).2 10).1 ++
        (refillNarrow (refillNarrow (refillNarrow c2State 10).2 10).2 10).1).take 48 ∧
    (refillWide c2State 10).1.drop 48 ≠ (refillNarrow c2StateP3 10).1 := by
  decide

/-- ChaCha20 (64-bit counter) after `seek(1)`: a seek into block 0 at a
nonzero byte offset, which leaves `len = 0`, `fresh = true` and `have = -1`. -/
def c5Base : Buffer := (seekAny false (newO 8 kZ32 nZ8) 1).getD (newO 8 kZ32 nZ8)

/-- Claim C5 fails on the code: after `seek(1)` on a 64-bit-counter variant
the buffer has `have < 0` and `len = 0`, so the unguarded `self.len -= 1` in
the lazy-refill path of `try_apply_keystream` underflows below zero — the
`u64` subtraction wraps to `2^64 - 1` (and panics in a debug build), despite
the source comment `// checked in seek()`. -/
theorem c5_len_underflow :
    c5Base.hav = -1 ∧ c5Base.len = 0 ∧ c5Base.fresh = true ∧
    (tryApplyKeystream 10 c5Base [0]).ok = true ∧
    (tryApplyKeystream 10 c5Base [0]).buf.len = 18446744073709551615 := by
  decide

/-- A 12-byte IETF nonce whose first word is 9. -/
def c6Nonce : List Nat := [9, 0, 0, 0, 0, 0, 0, 74, 0, 0, 0, 0]

/-- IETF cipher seeked to the final in-horizon block (counter `2^32 - 1`). -/
def c6Base : Buffer :=
  (seekAny true (newO 12 kZ32 c6Nonce) (4294967295 * 64)).getD (newO 12 kZ32 c6Nonce)

/-- The result of producing that final block. -/
def c6After : TryResult := tryApplyKeystream 10 c6Base (List.replicate 64 0)

/-- Claim C6 fails on the code at the final in-horizon block: producing the
IETF block with counter `2^32 - 1` succeeds, but the narrow refill's 64-bit
counter increment carries out of lane 0 into lane 1 of `state.d`, overwriting
the first nonce word (9 becomes 10).  The corruption is observable: `seek`
only restores lane 0, so a later seek-back produces keystream for the wrong
nonce. -/
theorem c6_nonce_lane_clobbered :
    (newO 12 kZ32 c6Nonce).state.d.x1 = 9 ∧
    c6Base.state.d.x1 = 9 ∧ c6Base.len = 1 ∧
    c6After.ok = true ∧
    c6After.buf.state.d.x1 = 10 := by
  decide

/-- The RFC 7539 §2.4.2 key `00 01 ... 1f`. -/
def keyS1 : List Nat := List.range 32

/-- The RFC 7539 §2.4.2 nonce `00 00 00 09 00 00 00 4a 00 00 00 00`. -/
def nonceS1 : List Nat := [0, 0, 0, 9, 0, 0, 0, 74, 0, 0, 0, 0]

/-- Bytes 64..128 of the RFC 7539 §2.4.2 keystream (`10f1e7e4...2503c4e`). -/
def s1Expected : List Nat :=
  [0x10, 0xf1, 0xe7, 0xe4, 0xd1, 0x3b, 0x59, 0x15, 0x50, 0x0f, 0xdd, 0x1f, 0xa3, 0x20, 0x71, 0xc4,
   0xc7, 0xd1, 0xf4, 0xc7, 0x33, 0xc0, 0x68, 0x03, 0x04, 0x22, 0xaa, 0x9a, 0xc3, 0xd4, 0x6c, 0x4e,
   0xd2, 0x82, 0x64, 0x46, 0x07, 0x9f, 0xaa, 0x09, 0x14, 0xc2, 0xd7, 0x05, 0xd9, 0x8b, 0x02, 0xa2,
   0xb5, 0x12, 0x9c, 0xd1, 0xde, 0x16, 0x4e, 0xb9, 0xcb, 0xd0, 0x83, 0xe8, 0xa2, 0x50, 0x3c, 0x4e]

/-- The S1 cipher seeked to byte offset 64 (scenario S2). -/
def c9SeekBase : Buffer :=
  (seekAny true (newO 12 keyS1 nonceS1) 64).getD (newO 12 keyS1 nonceS1)

/-- Claim C9 holds: with the RFC 7539 §2.4.2 key and nonce, producing 128
keystream bytes from offset 0 yields the published vector in bytes 64..128,
and `seek(64)` followed by producing 64 bytes yields exactly those bytes. -/
theorem c9_rfc7539_vectors :
    (tryApplyKeystream 10 (newO 12 keyS1 nonceS1) (List.replicate 128 0)).ok = true ∧
    (tryApplyKeystream 10 (newO 12 keyS1 nonceS1) (List.replicate 128 0)).data.drop 64 =
      s1Expected ∧
    (tryApplyKeystream 10 c9SeekBase (List.replicate 64 0)).ok = true ∧
    (tryApplyKeystream 10 c9SeekBase (List.replicate 64 0)).data = s1Expected := by
  decide

/-! ## Arithmetic bridge lemmas -/

theorem lor_lo_hi (a b : Nat) (h : a < 4294967296) : a ||| (b <<< 32) = a + 4294967296 * b := by
  have h32 : (4294967296 : Nat) = 2 ^ 32 := by norm_num
  calc a ||| (b <<< 32) = a ||| (2 ^ 32 * b) := by rw [Nat.shiftLeft_eq, Nat.mul_comm]
    _ = 2 ^ 32 * b ||| a := Nat.or_comm _ _
    _ = 2 ^ 32 * b + a := (Nat.mul_add_lt_is_or (h32 ▸ h) b).symm
    _ = a + 4294967296 * b := by rw [h32]; omega

theorem ctr64_eq (d : V4) (h : d.x0 < 4294967296) : ctr64 d = d.x0 + 4294967296 * d.x1 :=
  lor_lo_hi d.x0 d.x1 h

/-! ## State lemmas for the refill engines and the buffer loops -/

theorem refillNarrow_state (s : ChaCha) (r : Nat) (h0 : s.d.x0 < 4294967296) :
    (refillNarrow s r).2.b = s.b ∧ (refillNarrow s r).2.c = s.c ∧
    (refillNarrow s r).2.d.x2 = s.d.x2 ∧ (refillNarrow s r).2.d.x3 = s.d.x3 ∧
    (refillNarrow s r).2.d.x0 = (s.d.x0 + 1) % 4294967296 ∧
    (refillNarrow s r).2.d.x0 < 4294967296 ∧
    ctr64 (refillNarrow s r).2.d = (ctr64 s.d + 1) % 18446744073709551616 := by
  have hc := ctr64_eq s.d h0
  simp only [refillNarrow, V4.replace0, V4.replace1, m32, m64]
  refine ⟨trivial, trivial, trivial, trivial, ?_, ?_, ?_⟩
  · omega
  · omega
  · rw [ctr64_eq _ (by simp; omega)]
    simp only [Nat.shiftRight_eq_div_pow]
    norm_num
    omega

theorem refillWide_state (s : ChaCha) (r : Nat) (h0 : s.d.x0 < 4294967296) :
    (refillWide s r).2.b = s.b ∧ (refillWide s r).2.c = s.c ∧
    (refillWide s r).2.d.x2 = s.d.x2 ∧ (refillWide s r).2.d.x3 = s.d.x3 ∧
    (refillWide s r).2.d.x0 = (s.d.x0 + 4) % 4294967296 ∧
    (refillWide s r).2.d.x0 < 4294967296 ∧
    ctr64 (refillWide s r).2.d = (ctr64 s.d + 4) % 18446744073709551616 := by
  have hc := ctr64_eq s.d h0
  simp only [refillWide, V4.replace0, V4.replace1, m32, m64]
  refine ⟨trivial, trivial, trivial, trivial, ?_, ?_, ?_⟩
  · omega
  · omega
  · rw [ctr64_eq _ (by simp; omega)]
    simp only [Nat.shiftRight_eq_div_pow]
    norm_num
    omega

theorem wideChunks_x0 (r : Nat) :
    ∀ (q : Nat) (s : ChaCha) (d : List Nat), s.d.x0 < 4294967296 →
      (wideChunks r q s d).1.d.x0 = (s.d.x0 + 4 * q) % 4294967296 ∧
      (wideChunks r q s d).1.d.x0 < 4294967296 := by
  intro q
  induction q with
  | zero => intro s d h; simp [wideChunks]; omega
  | succ n ih =>
    intro s d h
    have hw := refillWide_state s r h
    have := ih (refillWide s r).2 (d.drop 256) hw.2.2.2.2.2.1
    simp only [wideChunks]
    constructor
    · rw [this.1, hw.2.2.2.2.1]
      omega
    · exact this.2

theorem narrowTail_x0 (r : Nat) :
    ∀ (q : Nat) (s : ChaCha) (out : List Nat) (hv : Nat) (d : List Nat), s.d.x0 < 4294967296 →
      (narrowTail r q s out hv d).state.d.x0 = (s.d.x0 + q) % 4294967296 ∧
      (narrowTail r q s out hv d).state.d.x0 < 4294967296 := by
  intro q
  induction q with
  | zero => intro s out hv d h; simp [narrowTail]; omega
  | succ n ih =>
    intro s out hv d h
    have hn := refillNarrow_state s r h
    have := ih (refillNarrow s r).2 (wordsToBytes (refillNarrow s r).1) (64 - min 64 d.length)
      (d.drop 64) hn.2.2.2.2.2.1
    simp only [narrowTail]
    constructor
    · rw [this.1, hn.2.2.2.2.1]
      omega
    · exact this.2

/-! ## The IETF len-vs-counter invariant -/

/-- The implicit IETF invariant of claim C10: lane 0 of `state.d` is a 32-bit
word and `len` plus that block counter is congruent to 0 modulo `2^32`. -/
def ietfInv (b : Buffer) : Prop :=
  b.state.d.x0 < 4294967296 ∧ (b.len + b.state.d.x0) % 4294967296 = 0

instance (b : Buffer) : Decidable (ietfInv b) := by
  unfold ietfInv
  infer_instance

theorem blocksNeededOf_eq (n : Nat) : blocksNeededOf n = (n + 63) / 64 := by
  unfold blocksNeededOf
  by_cases h : n % 64 = 0 <;> simp [h] <;> omega

theorem lazyRefill_inv (r : Nat) (b : Buffer) (h : ietfInv b) : ietfInv (lazyRefill r b) := by
  obtain ⟨hx, hs⟩ := h
  unfold lazyRefill
  split
  · have hn := refillNarrow_state b.state r hx
    exact ⟨hn.2.2.2.2.2.1, by simp only []; rw [hn.2.2.2.2.1]; omega⟩
  · exact ⟨hx, hs⟩

theorem tryApply_inv (r : Nat) (b0 : Buffer) (data : List Nat) (h : ietfInv b0) :
    ietfInv (tryApplyKeystream r b0 data).buf := by
  have h1 : ietfInv (lazyRefill r b0) := lazyRefill_inv r b0 h
  obtain ⟨hx1, hs1⟩ := h1
  simp only [tryApplyKeystream]
  split
  · exact ⟨hx1, hs1⟩
  · constructor
    · exact (narrowTail_x0 r _ _ _ _ _ (wideChunks_x0 r _ _ _ hx1).2).2
    · rw [(narrowTail_x0 r _ _ _ _ _ (wideChunks_x0 r _ _ _ hx1).2).1,
        (wideChunks_x0 r _ _ _ hx1).1]
      simp only [ovSub64, List.length_drop, blocksNeededOf_eq]
      omega

/-! ## Seek characterisations -/

theorem seekAny_false_eq (b : Buffer) (ct : Nat) :
    seekAny false b ct = some
      { state := b.state.seek64 (ct / 64), out := b.out,
        hav := -((ct % 64 : Nat) : Int),
        len := (0 + 18446744073709551616 - ct / 64 % 18446744073709551616) %
          18446744073709551616,
        fresh := decide (ct / 64 = 0) } := rfl

theorem seekAny_true_eq (b : Buffer) (ct : Nat) :
    seekAny true b ct =
      (if ct / 64 < 4294967296 ∨ (ct / 64 = 4294967296 ∧ ct % 64 = 0) then
        some { state := b.state.seek32 (m32 (ct / 64)), out := b.out,
               hav := -((ct % 64 : Nat) : Int),
               len := 4294967296 - ct / 64, fresh := b.fresh }
      else none) := rfl

/-- Claim C10 holds, as preservation of the invariant by every operation:
it is established by IETF construction, by every non-panicking IETF seek, and
preserved by every `try_apply_keystream` call whether it succeeds or fails —
the lazy refill, the wide bulk loop and the narrow tail loop each advance the
lane-0 counter by exactly the number of blocks subtracted from `len`, all
modulo `2^32`. -/
theorem c10_invariant :
    (∀ key nonce, ietfInv (newO 12 key nonce)) ∧
    (∀ (b : Buffer) (ct : Nat) (b2 : Buffer), seekAny true b ct = some b2 → ietfInv b2) ∧
    (∀ (r : Nat) (b : Buffer) (data : List Nat), ietfInv b →
      ietfInv (tryApplyKeystream r b data).buf) := by
  refine ⟨?_, ?_, ?_⟩
  · intro key nonce
    constructor <;> simp [newO, ietfInv]
  · intro b ct b2 hseek
    rw [seekAny_true_eq] at hseek
    split_ifs at hseek with hcond
    · rw [Option.some.injEq] at hseek
      subst hseek
      refine ⟨?_, ?_⟩ <;> simp only [ChaCha.seek32, V4.replace0, m32] <;> try omega
  · exact tryApply_inv

/-- The invariant for claim C10, instantiated: it holds for a freshly
constructed IETF cipher and is preserved across a concrete
`try_apply_keystream` call. -/
theorem c10_invariant_witness :
    ietfInv (newO 12 keyS1 nonceS1) ∧
    ietfInv (tryApplyKeystream 10 (newO 12 keyS1 nonceS1) (List.replicate 3 0)).buf :=
  ⟨c10_invariant.1 keyS1 nonceS1,
   c10_invariant.2.2 10 (newO 12 keyS1 nonceS1) (List.replicate 3 0) (by decide)⟩

/-! ## Claim C3: failure semantics of the horizon check -/

/-- The logical byte position of a buffer: counter times 64 minus the signed
residue count. -/
def logicalPos (b : Buffer) : Int := (ctr64 b.state.d : Int) * 64 - b.hav

/-- The conclusion of claim C3 for a failing call: the result is exactly the
lazily-normalised buffer together with untouched data and the error flag, and
the lazy normalisation preserves the logical position and `fresh`, adjusting
`len` and `have` only by the pending-block bookkeeping. -/
def c3Prop (r : Nat) (b0 : Buffer) (data : List Nat) : Prop :=
  tryApplyKeystream r b0 data = ⟨lazyRefill r b0, data, false⟩ ∧
  logicalPos (lazyRefill r b0) = logicalPos b0 ∧
  (lazyRefill r b0).fresh = b0.fresh ∧
  (lazyRefill r b0).len =
    (if b0.hav < 0 then (b0.len + 18446744073709551616 - 1) % 18446744073709551616 else b0.len) ∧
  (lazyRefill r b0).hav = (if b0.hav < 0 then b0.hav + 64 else b0.hav)

/-- Claim C3 holds: whenever the block budget (after lazy-refill
normalisation) is smaller than the blocks needed for `data` and the cipher is
not fresh, `try_apply_keystream` returns the error with `data` byte-for-byte
unmodified and the buffer exactly as the lazy refill left it — no block for
the current call is generated, and `len`, `fresh` and the logical position
are unchanged apart from the position-preserving lazy normalisation. -/
theorem c3_horizon_failure (r : Nat) (b0 : Buffer) (data : List Nat)
    (h0 : b0.state.d.x0 < 4294967296)
    (hwrap : b0.hav < 0 → ctr64 b0.state.d + 1 < 18446744073709551616)
    (hov : (lazyRefill r b0).len <
      blocksNeededOf (data.length - min (i8usize (lazyRefill r b0).hav) data.length))
    (hfresh : (lazyRefill r b0).fresh = false) :
    c3Prop r b0 data := by
  refine ⟨?_, ?_, ?_, ?_, ?_⟩
  · simp only [tryApplyKeystream]
    rw [if_pos]
    simp [ovSub64, hfresh, hov]
  · by_cases hb : b0.hav < 0
    · have hn := refillNarrow_state b0.state r h0
      have hmod : ctr64 (refillNarrow b0.state r).2.d = ctr64 b0.state.d + 1 := by
        rw [hn.2.2.2.2.2.2, Nat.mod_eq_of_lt (hwrap hb)]
      simp only [logicalPos, lazyRefill, if_pos hb, hmod]
      push_cast
      ring
    · simp [lazyRefill, hb]
  · by_cases hb : b0.hav < 0 <;> simp [lazyRefill, hb]
  · by_cases hb : b0.hav < 0 <;> simp [lazyRefill, hb]
  · by_cases hb : b0.hav < 0 <;> simp [lazyRefill, hb]

/-- An IETF buffer with its budget exhausted (`len = 0`, not fresh). -/
def c3Exhausted : Buffer :=
  { state := (newO 12 keyS1 nonceS1).state, out := List.replicate 64 0,
    hav := 0, len := 0, fresh := false }

/-- Claim C3's hypotheses are satisfiable and its conclusion holds at a
concrete exhausted buffer and a one-byte request. -/
theorem c3_horizon_failure_witness :
    c3Exhausted.state.d.x0 < 4294967296 ∧
    (c3Exhausted.hav < 0 → ctr64 c3Exhausted.state.d + 1 < 18446744073709551616) ∧
    (lazyRefill 10 c3Exhausted).len <
      blocksNeededOf (([0] : List Nat).length -
        min (i8usize (lazyRefill 10 c3Exhausted).hav) ([0] : List Nat).length) ∧
    (lazyRefill 10 c3Exhausted).fresh = false ∧
    c3Prop 10 c3Exhausted [0] :=
  ⟨by decide, by decide, by decide, by decide,
   c3_horizon_failure 10 c3Exhausted [0] (by decide) (by decide) (by decide) (by decide)⟩

/-! ## Claim C4: the narrow refill -/

/-- The spec's description (§4.2) of the narrow refill output: apply R double
rounds to (K, b, c, d) and store, in order, X.a + K, X.b + b, X.c + c,
X.d + d into words 0..4, 4..8, 8..12, 12..16. -/
def narrowWordsSpec (s : ChaCha) (r : Nat) : List Nat :=
  v4w ((drounds r ⟨kRow, s.b, s.c, s.d⟩).a.add kRow) ++
  v4w ((drounds r ⟨kRow, s.b, s.c, s.d⟩).b.add s.b) ++
  v4w ((drounds r ⟨kRow, s.b, s.c, s.d⟩).c.add s.c) ++
  v4w ((drounds r ⟨kRow, s.b, s.c, s.d⟩).d.add s.d)

/-- The conclusion of claim C4: output words as the spec describes them, the
64-bit counter advanced by exactly one (low word first, carry into high), and
`state.b`, `state.c` and lanes 2 and 3 of `state.d` untouched. -/
def c4Prop (s : ChaCha) (r : Nat) : Prop :=
  (refillNarrow s r).1 = narrowWordsSpec s r ∧
  ctr64 (refillNarrow s r).2.d = (ctr64 s.d + 1) % 18446744073709551616 ∧
  (refillNarrow s r).2.b = s.b ∧ (refillNarrow s r).2.c = s.c ∧
  (refillNarrow s r).2.d.x2 = s.d.x2 ∧ (refillNarrow s r).2.d.x3 = s.d.x3

/-- Claim C4 holds, for every state with a 32-bit lane 0 and every double
round count. -/
theorem c4_refill_narrow (s : ChaCha) (r : Nat) (h0 : s.d.x0 < 4294967296) : c4Prop s r := by
  have hn := refillNarrow_state s r h0
  exact ⟨rfl, hn.2.2.2.2.2.2, hn.1, hn.2.1, hn.2.2.1, hn.2.2.2.1⟩

/-- A small concrete state for the C4 witness. -/
def c4State : ChaCha := ⟨⟨1, 0, 0, 0⟩, ⟨0, 0, 0, 0⟩, ⟨5, 6, 7, 8⟩⟩

/-- Claim C4's hypothesis is satisfiable and its conclusion holds at a
concrete state with one double round. -/
theorem c4_refill_narrow_witness : c4State.d.x0 < 4294967296 ∧ c4Prop c4State 1 :=
  ⟨by decide, c4_refill_narrow c4State 1 (by decide)⟩

/-! ## Claim C8: seek semantics -/

/-- The conclusion of claim C8: the 64-bit-counter branch accepts every
offset, wraps `len`, writes the block count into both counter lanes and sets
`fresh`; the IETF branch panics exactly beyond the horizon, and otherwise
sets `len = 2^32 - ct/64` and writes the (truncated) block count into lane 0
only.  Neither branch produces keystream or touches the other state. -/
def c8Prop (b : Buffer) (ct : Nat) : Prop :=
  (seekAny false b ct = some ((seekAny false b ct).getD b) ∧
    ((seekAny false b ct).getD b).len = (18446744073709551616 - ct / 64) % 18446744073709551616 ∧
    ctr64 ((seekAny false b ct).getD b).state.d = ct / 64 ∧
    ((seekAny false b ct).getD b).state.d.x2 = b.state.d.x2 ∧
    ((seekAny false b ct).getD b).state.d.x3 = b.state.d.x3 ∧
    ((seekAny false b ct).getD b).state.b = b.state.b ∧
    ((seekAny false b ct).getD b).state.c = b.state.c ∧
    ((seekAny false b ct).getD b).out = b.out ∧
    ((seekAny false b ct).getD b).fresh = decide (ct / 64 = 0) ∧
    ((seekAny false b ct).getD b).hav = -((ct % 64 : Nat) : Int)) ∧
  ((seekAny true b ct = none) ↔
    (ct / 64 > 4294967296 ∨ (ct / 64 = 4294967296 ∧ ct % 64 ≠ 0))) ∧
  (∀ b2, seekAny true b ct = some b2 →
    b2.len = 4294967296 - ct / 64 ∧
    b2.state.d.x0 = ct / 64 % 4294967296 ∧
    b2.state.d.x1 = b.state.d.x1 ∧ b2.state.d.x2 = b.state.d.x2 ∧
    b2.state.d.x3 = b.state.d.x3 ∧
    b2.state.b = b.state.b ∧ b2.state.c = b.state.c ∧ b2.out = b.out ∧
    b2.fresh = b.fresh ∧ b2.hav = -((ct % 64 : Nat) : Int))

/-- Claim C8 holds for every buffer and every `u64` byte offset. -/
theorem c8_seek (b : Buffer) (ct : Nat) (hct : ct < 18446744073709551616) :
    c8Prop b ct := by
  refine ⟨?_, ?_, ?_⟩
  · rw [seekAny_false_eq, Option.getD_some]
    refine ⟨rfl, ?_, ?_, rfl, rfl, rfl, rfl, rfl, rfl, rfl⟩
    · simp only [ChaCha.seek64]
      omega
    · simp only [ChaCha.seek64, V4.replace0, V4.replace1]
      rw [ctr64_eq _ (by simp [m32]; omega)]
      simp only [m32, Nat.shiftRight_eq_div_pow]
      norm_num
      omega
  · rw [seekAny_true_eq]
    split_ifs with hcond
    · constructor
      · intro hsn
        exact absurd hsn (by simp)
      · intro hr
        exfalso
        omega
    · constructor
      · intro _
        omega
      · intro _
        rfl
  · intro b2 hseek
    rw [seekAny_true_eq] at hseek
    split_ifs at hseek with hcond
    · rw [Option.some.injEq] at hseek
      subst hseek
      exact ⟨rfl, rfl, rfl, rfl, rfl, rfl, rfl, rfl, rfl, rfl⟩

/-- Claim C8's hypothesis is satisfiable and its conclusion holds at a
concrete buffer and offset. -/
theorem c8_seek_witness : 130 < 18446744073709551616 ∧ c8Prop (newO 8 kZ32 nZ8) 130 :=
  ⟨by decide, c8_seek (newO 8 kZ32 nZ8) 130 (by decide)⟩

/-! ## Claim C7: the IETF horizon boundary -/

/-- The all-0xff key used by the source's `read_last_bytes` test. -/
def c7Key : List Nat := List.replicate 32 255

/-- The all-zero IETF nonce of that test. -/
def c7Nonce : List Nat := List.replicate 12 0

/-- The IETF cipher seeked to ten bytes before the horizon
(`2^32 * 64 - 10`). -/
def c7Base : Buffer :=
  (seekAny true (newO 12 c7Key c7Nonce) (274877906944 - 10)).getD (newO 12 c7Key c7Nonce)

/-- The result of requesting exactly the last ten in-horizon bytes. -/
def c7After : TryResult := tryApplyKeystream 10 c7Base (List.replicate 10 0)

theorem exhausted_fails (r : Nat) (b : Buffer) (d2 : List Nat)
    (hh : b.hav = 0) (hl : b.len = 0) (hf : b.fresh = false) (hne : d2 ≠ []) :
    (tryApplyKeystream r b d2).ok = false := by
  have hlz : lazyRefill r b = b := by
    unfold lazyRefill
    rw [hh]
    simp
  have hpos : 0 < blocksNeededOf (d2.length - min (i8usize b.hav) d2.length) := by
    rw [blocksNeededOf_eq]
    have hdl : 0 < d2.length := List.length_pos.mpr hne
    rw [hh]
    simp only [i8usize]
    omega
  simp only [tryApplyKeystream, hlz]
  rw [if_pos]
  · simp only [ovSub64, hl, hf]
    simp only [Bool.not_false, Bool.and_true, decide_eq_true_eq]
    omega

/-- Claim C7 holds: the single call covering the last ten bytes before the
IETF horizon succeeds (so the byte at offset `2^32 * 64 - 1` is producible),
it leaves the budget exhausted and not fresh, and every following call with
nonempty data fails (so the byte at offset `2^32 * 64` is not producible). -/
theorem c7_horizon_boundary (d2 : List Nat) (hne : d2 ≠ []) :
    c7After.ok = true ∧ c7After.buf.len = 0 ∧ c7After.buf.fresh = false ∧
    (tryApplyKeystream 10 c7After.buf d2).ok = false := by
  refine ⟨by decide, by decide, by decide, ?_⟩
  exact exhausted_fails 10 c7After.buf d2 (by decide) (by decide) (by decide) hne

/-- Claim C7's hypothesis is satisfiable and its conclusion holds for a
concrete following one-byte request. -/
theorem c7_horizon_boundary_witness :
    (([0] : List Nat) ≠ []) ∧
    (c7After.ok = true ∧ c7After.buf.len = 0 ∧ c7After.buf.fresh = false ∧
      (tryApplyKeystream 10 c7After.buf [0]).ok = false) :=
  ⟨by decide, c7_horizon_boundary [0] (by decide)⟩

end CC
